import Mathlib

/-!
Verification of the SubjectChat Provider Gateway & Tutoring Orchestration
subsystem.  The frontend client (apps/web/src/api.ts `sendChatStream`,
apps/web/src/App.tsx `handleSend`) is embedded directly from the source;
backend components (moderation gate, provider gateway, stub adapter,
prompt builder, recommendation engine) live in the repository's FastAPI
app which is not part of the vendored sources, so they are modelled from
the specification where noted.
-/

namespace SubjectChat

/-- Message roles, from the `ChatMessage` interface in api.ts. -/
inductive Role where
  | user
  | assistant
  | system
deriving DecidableEq, Repr

/-- `ChatMessage` from api.ts: a role plus text content. -/
structure ChatMessage where
  role : Role
  content : String
deriving DecidableEq, Repr

/-- `ChatRequest` from api.ts: subject id, ordered messages, options. -/
structure ChatRequest where
  subjectId : String
  messages : List ChatMessage
  maxTokens : Option Nat := none
deriving DecidableEq, Repr

/-- `ChatResponse` from api.ts: the assistant message, the model
identifier, and the stub flag. -/
structure ChatResult where
  assistantMessage : ChatMessage
  modelIdentifier : String
  isStub : Bool
deriving DecidableEq, Repr

/-- A stream segment: a content delta, the end-of-stream marker, or a
terminal error marker. -/
inductive StreamSegment where
  | delta (s : String)
  | done
  | errorSeg
deriving DecidableEq, Repr

/-- The content deltas of a segment list, in order. -/
def contentDeltas (segs : List StreamSegment) : List String :=
  segs.filterMap fun s =>
    match s with
    | .delta d => some d
    | _ => none

/-- Concatenation of a list of strings, head first. -/
def concatAll : List String → String
  | [] => ""
  | s :: ss => s ++ concatAll ss

/-! ## The client-side SSE stream parser (`sendChatStream` in api.ts)

The transport delivers an arbitrary partition of the response bytes into
reads.  `sendChatStream` keeps a buffer, appends each read, splits on
newline, pops the trailing incomplete piece back into the buffer, and for
each complete line starting with "data: " attempts to parse the payload
as JSON and deliver its string `content` field via `onChunk`.  We model
the byte/char stream as `List Char` and the JavaScript
`JSON.parse` + `typeof obj.content === "string"` step as an abstract
extractor `jc : List Char → Option (List Char)`. -/

/-- Split a char stream into its complete (newline-terminated) lines and
the trailing incomplete remainder, mirroring
`buffer.split("\n")` followed by `buffer = lines.pop()`. -/
def splitComplete : List Char → List (List Char) × List Char
  | [] => ([], [])
  | c :: rest =>
    if c = '\n' then
      let p := splitComplete rest
      ([] :: p.1, p.2)
    else
      let p := splitComplete rest
      match p.1 with
      | [] => ([], c :: p.2)
      | l :: ls => ((c :: l) :: ls, p.2)

/-- The literal "data: " tag checked by `line.startsWith("data: ")`. -/
def dataTag : List Char := [ 'd', 'a', 't', 'a', ':', ' ']

/-- Handling of one complete line in `sendChatStream`: lines starting
with "data: " have their payload (after the 6-char tag) fed to the JSON
content extractor `jc`; all other lines, and lines whose payload does not
yield a string content field, produce nothing. -/
def handleLine (jc : List Char → Option (List Char)) (line : List Char) :
    Option (List Char) :=
  if line.take 6 = dataTag then jc (line.drop 6) else none

/-- The `onChunk` outputs produced by the read loop of `sendChatStream`,
given the buffer contents and the remaining reads. -/
def processChunks (jc : List Char → Option (List Char)) (buf : List Char) :
    List (List Char) → List (List Char)
  | [] => []
  | chunk :: rest =>
    let p := splitComplete (buf ++ chunk)
    p.1.filterMap (handleLine jc) ++ processChunks jc p.2 rest

theorem splitComplete_nil : splitComplete [] = ([], []) := rfl

theorem splitComplete_nl (s : List Char) :
    splitComplete ('\n' :: s) =
      ([] :: (splitComplete s).1, (splitComplete s).2) := by
  simp [splitComplete]

theorem splitComplete_cons_ne_nil {c : Char} (h : ¬ c = '\n') {s : List Char}
    (h2 : (splitComplete s).1 = []) :
    splitComplete (c :: s) = ([], c :: (splitComplete s).2) := by
  simp [splitComplete, h, h2]

theorem splitComplete_cons_ne_cons {c : Char} (h : ¬ c = '\n')
    {s l : List Char} {ls : List (List Char)}
    (h2 : (splitComplete s).1 = l :: ls) :
    splitComplete (c :: s) = ((c :: l) :: ls, (splitComplete s).2) := by
  simp [splitComplete, h, h2]

/-- A newline-free string has no complete line: it is all buffer. -/
theorem splitComplete_of_no_nl {b : List Char} (h : '\n' ∉ b) :
    splitComplete b = ([], b) := by
  induction b with
  | nil => rfl
  | cons c b ih =>
    have hc : ¬ c = '\n' := fun hc => h (hc ▸ List.mem_cons_self c b)
    have hb : '\n' ∉ b := fun hb => h (List.mem_cons_of_mem c hb)
    rw [splitComplete_cons_ne_nil hc (by rw [ih hb]), ih hb]

/-- The buffer left over by `splitComplete` never contains a newline. -/
theorem no_nl_in_buffer (s : List Char) : '\n' ∉ (splitComplete s).2 := by
  induction s with
  | nil => simp [splitComplete_nil]
  | cons c s ih =>
    by_cases hc : c = '\n'
    · subst hc
      rw [splitComplete_nl]
      exact ih
    · rcases h1 : (splitComplete s).1 with _ | ⟨l, ls⟩
      · rw [splitComplete_cons_ne_nil hc h1]
        intro hmem
        rcases List.mem_cons.mp hmem with h | h
        · exact hc h.symm
        · exact ih h
      · rw [splitComplete_cons_ne_cons hc h1]
        exact ih

/-- Prepending a newline-free buffer and a newline flushes the buffer as
the first complete line. -/
theorem splitComplete_flush {b : List Char} (h : '\n' ∉ b) (s : List Char) :
    splitComplete (b ++ '\n' :: s) =
      (b :: (splitComplete s).1, (splitComplete s).2) := by
  induction b with
  | nil => simpa using splitComplete_nl s
  | cons c b ih =>
    have hc : ¬ c = '\n' := fun hc => h (hc ▸ List.mem_cons_self c b)
    have hb : '\n' ∉ b := fun hb => h (List.mem_cons_of_mem c hb)
    have hrec := ih hb
    rw [List.cons_append, splitComplete_cons_ne_cons hc (by rw [hrec]), hrec]

/-- One character step of the line accumulator: a newline flushes the
current buffer as a complete line, any other character extends it. -/
def lineStep (st : List (List Char) × List Char) (c : Char) :
    List (List Char) × List Char :=
  if c = '\n' then (st.1 ++ [st.2], []) else (st.1, st.2 ++ [c])

/-- Left-fold view of line splitting: completed lines so far plus the
open buffer. -/
def scanLines (st : List (List Char) × List Char) (s : List Char) :
    List (List Char) × List Char :=
  s.foldl lineStep st

/-- The fold view agrees with `splitComplete` on the buffer so far plus
the new input, provided the buffer is newline-free (which the loop
maintains). -/
theorem scanLines_eq (s : List Char) :
    ∀ (ls : List (List Char)) (b : List Char), '\n' ∉ b →
      scanLines (ls, b) s =
        (ls ++ (splitComplete (b ++ s)).1, (splitComplete (b ++ s)).2) := by
  induction s with
  | nil =>
    intro ls b hb
    rw [scanLines, List.foldl_nil, List.append_nil, splitComplete_of_no_nl hb]
    simp
  | cons c s ih =>
    intro ls b hb
    by_cases hc : c = '\n'
    · subst hc
      have step : scanLines (ls, b) ('\n' :: s) = scanLines (ls ++ [b], []) s := by
        rw [scanLines, scanLines, List.foldl_cons]
        simp [lineStep]
      rw [step, ih (ls ++ [b]) [] (by simp), splitComplete_flush hb]
      simp
    · have step : scanLines (ls, b) (c :: s) = scanLines (ls, b ++ [c]) s := by
        rw [scanLines, scanLines, List.foldl_cons]
        simp [lineStep, hc]
      have hb2 : '\n' ∉ b ++ [c] := by
        intro hmem
        rcases List.mem_append.mp hmem with h | h
        · exact hb h
        · exact hc (List.mem_singleton.mp h).symm
      rw [step, ih ls (b ++ [c]) hb2]
      simp

/-- Splitting a concatenation: the complete lines of `x ++ y` are the
complete lines of `x` followed by the complete lines of `x`'s leftover
buffer prepended to `y`; the final buffer comes from the second part.
This is exactly the invariant maintained by the read loop's buffer. -/
theorem splitComplete_append (x y : List Char) :
    splitComplete (x ++ y) =
      ((splitComplete x).1 ++ (splitComplete ((splitComplete x).2 ++ y)).1,
       (splitComplete ((splitComplete x).2 ++ y)).2) := by
  have h1 : scanLines ([], []) (x ++ y) =
      (([] : List (List Char)) ++ (splitComplete ([] ++ (x ++ y))).1,
       (splitComplete ([] ++ (x ++ y))).2) :=
    scanLines_eq (x ++ y) [] [] (by simp)
  have h2 : scanLines ([], []) x =
      (([] : List (List Char)) ++ (splitComplete ([] ++ x)).1,
       (splitComplete ([] ++ x)).2) :=
    scanLines_eq x [] [] (by simp)
  have h3 : scanLines ([], []) (x ++ y) = scanLines (scanLines ([], []) x) y := by
    rw [scanLines, scanLines, scanLines, List.foldl_append]
  rw [h1, h2] at h3
  simp only [List.nil_append] at h3
  rw [scanLines_eq y ((splitComplete x).1) ((splitComplete x).2)
    (no_nl_in_buffer x)] at h3
  exact h3

/-- The read loop, started on a newline-free buffer, delivers exactly the
handled complete lines of the buffer followed by all remaining input. -/
theorem processChunks_join (jc : List Char → Option (List Char)) :
    ∀ (chunks : List (List Char)) (buf : List Char), '\n' ∉ buf →
      processChunks jc buf chunks =
        ((splitComplete (buf ++ chunks.flatten)).1).filterMap (handleLine jc) := by
  intro chunks
  induction chunks with
  | nil =>
    intro buf hb
    rw [processChunks, List.flatten_nil, List.append_nil,
      splitComplete_of_no_nl hb]
    simp
  | cons c rest ih =>
    intro buf hb
    rw [processChunks, ih (splitComplete (buf ++ c)).2 (no_nl_in_buffer _),
      List.flatten_cons, ← List.append_assoc, splitComplete_append (buf ++ c)]
    simp [List.filterMap_append]

/-- Short-hand for string literals as char streams. -/
def chars (s : String) : List Char := s.data

/-- C10: the client-side stream parser `sendChatStream` is total and
order-preserving over arbitrary byte streams.  Its `onChunk` call
sequence is exactly one call, in stream order, per complete
newline-terminated line that starts with "data: " and whose payload
yields a string `content` field (abstracted as `jc`); lines where `jc`
fails (malformed JSON or non-string content) contribute nothing and do
not abort; bytes after the final newline (the leftover buffer) are never
delivered; and the sequence depends only on the concatenation of the
reads, not on how the transport partitions them. -/
theorem sendChatStream_partition_independent
    (jc : List Char → Option (List Char)) (chunks : List (List Char)) :
    processChunks jc [] chunks =
        ((splitComplete chunks.flatten).1).filterMap (handleLine jc)
      ∧ processChunks jc [] chunks = processChunks jc [] [chunks.flatten] := by
  have h1 := processChunks_join jc chunks [] (by simp)
  have h2 := processChunks_join jc [chunks.flatten] [] (by simp)
  rw [List.nil_append] at h1
  refine ⟨h1, ?_⟩
  rw [h1, h2]
  simp

/-- Sanity check: a delta split across two reads is delivered once,
intact, and the trailing bytes after the last newline are not
delivered. -/
theorem processChunks_split_read_example :
    processChunks (fun l => some l) []
        [chars "data: hel", chars "lo\ndata: tail"] = [chars "hello"] := by
  decide

/-! ## The client-side accumulation (`handleSend` in App.tsx)

`handleSend` appends an empty assistant message, then, for every chunk
received from `sendChatStream`, replaces the trailing message with a copy
whose content has the chunk appended (only when the trailing message is
an assistant message). -/

/-- The `onChunk` state update in `handleSend`: append the chunk to the
content of the trailing assistant message; leave the list unchanged when
the last message is not an assistant message. -/
def applyChunk (msgs : List ChatMessage) (chunk : String) : List ChatMessage :=
  match msgs.getLast? with
  | some last =>
    if last.role = Role.assistant then
      msgs.dropLast ++ [⟨Role.assistant, last.content ++ chunk⟩]
    else msgs
  | none => msgs

/-- The message-list state after `handleSend` has appended the empty
assistant placeholder and consumed all deltas of one stream. -/
def runClientStream (msgs : List ChatMessage) (deltas : List String) :
    List ChatMessage :=
  deltas.foldl applyChunk (msgs ++ [⟨Role.assistant, ""⟩])

theorem applyChunk_concat (m : List ChatMessage) (c d : String) :
    applyChunk (m ++ [⟨Role.assistant, c⟩]) d =
      m ++ [⟨Role.assistant, c ++ d⟩] := by
  simp [applyChunk]

/-- Folding the chunk updates over a trailing assistant message appends
the concatenation of all deltas to its content. -/
theorem foldl_applyChunk (ds : List String) :
    ∀ (m : List ChatMessage) (c : String),
      ds.foldl applyChunk (m ++ [⟨Role.assistant, c⟩]) =
        m ++ [⟨Role.assistant, c ++ concatAll ds⟩] := by
  induction ds with
  | nil =>
    intro m c
    simp [concatAll]
  | cons d ds ih =>
    intro m c
    rw [List.foldl_cons, applyChunk_concat, ih, concatAll,
      String.append_assoc]

/-- The client reconstruction: after one stream, the message list is the
original list plus one assistant message holding the concatenation of all
received deltas. -/
theorem runClientStream_eq (msgs : List ChatMessage) (deltas : List String) :
    runClientStream msgs deltas =
      msgs ++ [⟨Role.assistant, concatAll deltas⟩] := by
  rw [runClientStream, foldl_applyChunk]
  simp

/-! ## The Provider Gateway and its Backend Adapters

The gateway itself lives in the FastAPI backend, which is not vendored
with the sources; the definitions below are modelled from §4.2 of the
specification. -/

/-- Modelled from the spec: process-wide backend configuration, resolved
once at startup; `endpoint = none` means no backend endpoint (no
`OPENAI_BASE_URL`) is configured. -/
structure GatewayConfig where
  endpoint : Option String
deriving DecidableEq, Repr

/-- Modelled from the spec: the deterministic, subject-aware placeholder
of the stub adapter, as the list of stream pieces it emits; the stub must
emit the placeholder as multiple segments, so this list always has more
than one element. -/
def stubPieces (subjectId : String) : List String :=
  ["[stub] No backend endpoint is configured. ",
   "Here is a placeholder tutoring answer for ",
   subjectId,
   " so the UI and persistence can be exercised without a live model."]

/-- The full stub placeholder text: the concatenation of its pieces. -/
def stubContent (subjectId : String) : String :=
  concatAll (stubPieces subjectId)

/-- Modelled from the spec: the stub adapter's `complete`, always marked
`isStub := true`. -/
def stubComplete (req : ChatRequest) : ChatResult :=
  { assistantMessage := ⟨Role.assistant, stubContent req.subjectId⟩,
    modelIdentifier := "stub",
    isStub := true }

/-- Modelled from the spec: the stub adapter's `stream`: the placeholder
pieces as content deltas followed by the end-of-stream marker. -/
def stubStream (req : ChatRequest) : List StreamSegment :=
  (stubPieces req.subjectId).map StreamSegment.delta ++ [StreamSegment.done]

/-- Modelled from the spec: a hosted/local backend under one fixed
backend state is a token producer per request; the adapter normalizes
each backend token into a content delta.  `complete` buffers the full
output of the same producer. -/
def hostedComplete (tokens : ChatRequest → List String) (modelId : String)
    (req : ChatRequest) : ChatResult :=
  { assistantMessage := ⟨Role.assistant, concatAll (tokens req)⟩,
    modelIdentifier := modelId,
    isStub := false }

/-- Modelled from the spec: the hosted adapter's `stream` normalizes the
backend token stream into content deltas plus an end marker. -/
def hostedStream (tokens : ChatRequest → List String) (req : ChatRequest) :
    List StreamSegment :=
  (tokens req).map StreamSegment.delta ++ [StreamSegment.done]

/-- Modelled from the spec: the gateway's `complete` dispatches to the
single active adapter: the stub automatically whenever no endpoint is
configured, the hosted/local adapter otherwise. -/
def gatewayComplete (cfg : GatewayConfig) (real : ChatRequest → ChatResult)
    (req : ChatRequest) : ChatResult :=
  match cfg.endpoint with
  | none => stubComplete req
  | some _ => real req

/-- Modelled from the spec: the gateway's `stream`, dispatching like
`gatewayComplete`. -/
def gatewayStream (cfg : GatewayConfig)
    (realStream : ChatRequest → List StreamSegment) (req : ChatRequest) :
    List StreamSegment :=
  match cfg.endpoint with
  | none => stubStream req
  | some _ => realStream req

theorem contentDeltas_map_done (ts : List String) :
    contentDeltas (ts.map StreamSegment.delta ++ [StreamSegment.done]) = ts := by
  induction ts with
  | nil => rfl
  | cons t ts ih =>
    simp only [List.map_cons, List.cons_append, contentDeltas,
      List.filterMap_cons] at ih ⊢
    rw [ih]

/-- C1: for every request under one fixed backend state (token producer),
the concatenation, in delivery order, of the content deltas of one
`stream` call equals the `assistantMessage.content` returned by
`complete` for the same request; and the client (`handleSend`), appending
each received delta to the trailing assistant message, ends with exactly
that content. -/
theorem stream_complete_content_equiv (cfg : GatewayConfig)
    (tokens : ChatRequest → List String) (modelId : String)
    (req : ChatRequest) (msgs : List ChatMessage) :
    concatAll (contentDeltas (gatewayStream cfg (hostedStream tokens) req)) =
        (gatewayComplete cfg (hostedComplete tokens modelId)
          req).assistantMessage.content
      ∧ runClientStream msgs
          (contentDeltas (gatewayStream cfg (hostedStream tokens) req)) =
        msgs ++ [⟨Role.assistant,
          (gatewayComplete cfg (hostedComplete tokens modelId)
            req).assistantMessage.content⟩] := by
  rcases cfg with ⟨ep⟩
  cases ep with
  | none =>
    simp [gatewayStream, gatewayComplete, stubStream, stubComplete,
      stubContent, contentDeltas_map_done, runClientStream_eq]
  | some e =>
    simp [gatewayStream, gatewayComplete, hostedStream, hostedComplete,
      contentDeltas_map_done, runClientStream_eq]

/-- C3: whenever no backend endpoint is configured, both `complete` and
`stream` are served by the stub adapter with no explicit opt-in; the
result carries `isStub := true`; the placeholder depends only on the
subject (deterministic, subject-aware shape); and the stream emits the
placeholder as multiple (at least two) content segments. -/
theorem stub_adapter_default (cfg : GatewayConfig)
    (real : ChatRequest → ChatResult)
    (realStream : ChatRequest → List StreamSegment)
    (req req2 : ChatRequest) (h : cfg.endpoint = none)
    (hsubj : req2.subjectId = req.subjectId) :
    gatewayComplete cfg real req = stubComplete req
      ∧ (gatewayComplete cfg real req).isStub = true
      ∧ gatewayStream cfg realStream req = stubStream req
      ∧ (gatewayComplete cfg real req2).assistantMessage =
          (gatewayComplete cfg real req).assistantMessage
      ∧ 2 ≤ (contentDeltas (gatewayStream cfg realStream req)).length := by
  rcases cfg with ⟨ep⟩
  simp only at h
  subst h
  refine ⟨rfl, rfl, rfl, ?_, ?_⟩
  · simp [gatewayComplete, stubComplete, stubContent, hsubj]
  · show 2 ≤ (contentDeltas (stubStream req)).length
    rw [stubStream, contentDeltas_map_done]
    simp [stubPieces]

/-- Closed instance of `stub_adapter_default` at a concrete
configuration and request. -/
theorem stub_adapter_default_witness :
    gatewayComplete ⟨none⟩ (fun _ => ⟨⟨Role.assistant, "x"⟩, "m", false⟩)
        ⟨"math", [⟨Role.user, "hi"⟩], none⟩ =
      stubComplete ⟨"math", [⟨Role.user, "hi"⟩], none⟩
      ∧ (gatewayComplete ⟨none⟩ (fun _ => ⟨⟨Role.assistant, "x"⟩, "m", false⟩)
          ⟨"math", [⟨Role.user, "hi"⟩], none⟩).isStub = true
      ∧ gatewayStream ⟨none⟩ (fun _ => [])
          ⟨"math", [⟨Role.user, "hi"⟩], none⟩ =
        stubStream ⟨"math", [⟨Role.user, "hi"⟩], none⟩
      ∧ (gatewayComplete ⟨none⟩ (fun _ => ⟨⟨Role.assistant, "x"⟩, "m", false⟩)
          ⟨"math", [], none⟩).assistantMessage =
        (gatewayComplete ⟨none⟩ (fun _ => ⟨⟨Role.assistant, "x"⟩, "m", false⟩)
          ⟨"math", [⟨Role.user, "hi"⟩], none⟩).assistantMessage
      ∧ 2 ≤ (contentDeltas (gatewayStream ⟨none⟩ (fun _ => [])
          ⟨"math", [⟨Role.user, "hi"⟩], none⟩)).length :=
  stub_adapter_default ⟨none⟩ _ _ ⟨"math", [⟨Role.user, "hi"⟩], none⟩
    ⟨"math", [], none⟩ rfl rfl

/-! ## Moderation Gate and Orchestration Core

Both live in the FastAPI backend (`app/moderation.py` and the chat
handlers), which is not vendored with the sources; modelled from §4.1,
§4.5 and §7 of the specification.  The instrumentation record counts how
often each collaborator is invoked, mirroring the call-count assertions
the spec asks for. -/

/-- `ModerationVerdict` from the spec data model. -/
structure ModerationVerdict where
  allowed : Bool
  reason : Option String
deriving DecidableEq, Repr

/-- Modelled from the spec: the Moderation Gate `check`, a local
configurable disallowed-content matcher over the latest user message. -/
def check (matcher : String → Bool) (text : String) : ModerationVerdict :=
  if matcher text then ⟨false, some "disallowed content"⟩ else ⟨true, none⟩

/-- Modelled from the spec: the fixed safe refusal message returned or
streamed when moderation blocks a turn. -/
def refusalMessage : String :=
  "I cannot help with that request. Let us keep tutoring safe and on-topic."

/-- The content of the latest user turn in a message list. -/
def latestUserContent (msgs : List ChatMessage) : String :=
  match (msgs.filter (fun m => m.role = Role.user)).getLast? with
  | some m => m.content
  | none => ""

/-- Backend error classes from the spec error taxonomy: transient
(timeout, connection failure, rate limit) versus fatal (auth/config). -/
inductive BackendErr where
  | transient
  | fatal
deriving DecidableEq, Repr

/-- Orchestration-level errors from the spec error taxonomy. -/
inductive ChatError where
  | validation (msg : String)
  | upstreamUnavailable
  | backendFatal
deriving DecidableEq, Repr

/-- Terminal outcome of one chat turn. -/
inductive TurnOutcome where
  | completed (r : ChatResult)
  | blocked (refusal : String)
  | failed (e : ChatError)
deriving DecidableEq, Repr

/-- Invocation counters for the collaborators of one turn. -/
structure Instr where
  moderationCalls : Nat
  promptCalls : Nat
  backendCalls : Nat
deriving DecidableEq, Repr

/-- Modelled from the spec: the retry loop of `complete` over a fixed
schedule of attempt indices; a success or fatal error stops immediately,
a transient failure moves to the next attempt.  Returns the final
backend answer (none when all attempts are exhausted) and the number of
backend invocations. -/
def retryFrom (backend : Nat → Except BackendErr ChatResult) :
    List Nat → Option (Except BackendErr ChatResult) × Nat
  | [] => (none, 0)
  | i :: rest =>
    match backend i with
    | .ok r => (some (.ok r), 1)
    | .error .fatal => (some (.error .fatal), 1)
    | .error .transient =>
      let p := retryFrom backend rest
      (p.1, p.2 + 1)

/-- Modelled from the spec: one backend `stream` attempt either fails
before emitting anything (retryable) or yields its content pieces and
then either finishes cleanly or fails mid-stream. -/
inductive StreamAttempt where
  | failEarly
  | yields (pieces : List String) (midFail : Bool)

/-- Modelled from the spec: the gateway stream with retry only before
the first segment: early failures move to the next attempt; once an
attempt yields segments they are delivered as-is, terminated by the end
marker or, after a mid-stream failure, by a terminal error segment — and
no further attempt is made.  Exhaustion yields a terminal error. -/
def streamRetryFrom (attempts : Nat → StreamAttempt) :
    List Nat → List StreamSegment × Nat
  | [] => ([StreamSegment.errorSeg], 0)
  | i :: rest =>
    match attempts i with
    | .failEarly =>
      let p := streamRetryFrom attempts rest
      (p.1, p.2 + 1)
    | .yields pieces midFail =>
      (pieces.map StreamSegment.delta ++
        [if midFail then StreamSegment.errorSeg else StreamSegment.done], 1)

/-- Modelled from the spec: the Orchestration Core for the single-shot
chat operation: RECEIVED (structural validation) → MODERATED →
PROMPTED → DISPATCHED with bounded retries → terminal state. -/
def orchestrateComplete (subjects : List String) (matcher : String → Bool)
    (backend : Nat → Except BackendErr ChatResult) (maxAttempts : Nat)
    (req : ChatRequest) : TurnOutcome × Instr :=
  if req.messages = [] then
    (.failed (.validation "messages must be non-empty"), ⟨0, 0, 0⟩)
  else if subjects.contains req.subjectId = false then
    (.failed (.validation "unknown subjectId"), ⟨0, 0, 0⟩)
  else if (check matcher (latestUserContent req.messages)).allowed = false then
    (.blocked refusalMessage, ⟨1, 0, 0⟩)
  else
    let p := retryFrom backend (List.range maxAttempts)
    match p.1 with
    | some (.ok r) => (.completed r, ⟨1, 1, p.2⟩)
    | some (.error .fatal) => (.failed .backendFatal, ⟨1, 1, p.2⟩)
    | _ => (.failed .upstreamUnavailable, ⟨1, 1, p.2⟩)

/-- Modelled from the spec: the Orchestration Core for the streaming
chat operation; a blocked turn streams the fixed refusal, a dispatched
turn streams the gateway output. -/
def orchestrateStream (subjects : List String) (matcher : String → Bool)
    (attempts : Nat → StreamAttempt) (maxAttempts : Nat)
    (req : ChatRequest) : Except ChatError (List StreamSegment) × Instr :=
  if req.messages = [] then
    (.error (.validation "messages must be non-empty"), ⟨0, 0, 0⟩)
  else if subjects.contains req.subjectId = false then
    (.error (.validation "unknown subjectId"), ⟨0, 0, 0⟩)
  else if (check matcher (latestUserContent req.messages)).allowed = false then
    (.ok [StreamSegment.delta refusalMessage, StreamSegment.done], ⟨1, 0, 0⟩)
  else
    let p := streamRetryFrom attempts (List.range maxAttempts)
    (.ok p.1, ⟨1, 1, p.2⟩)

/-- C2: a turn whose latest user message matches a disallowed pattern is
blocked: the orchestration short-circuits with the fixed refusal
(returned on the single-shot path, streamed on the streaming path) and
the backend adapter is invoked zero times. -/
theorem moderation_short_circuit (subjects : List String)
    (matcher : String → Bool) (backend : Nat → Except BackendErr ChatResult)
    (attempts : Nat → StreamAttempt) (maxAttempts : Nat) (req : ChatRequest)
    (hmsgs : req.messages ≠ [])
    (hsubj : subjects.contains req.subjectId = true)
    (hmatch : matcher (latestUserContent req.messages) = true) :
    orchestrateComplete subjects matcher backend maxAttempts req =
        (.blocked refusalMessage, ⟨1, 0, 0⟩)
      ∧ orchestrateStream subjects matcher attempts maxAttempts req =
        (.ok [StreamSegment.delta refusalMessage, StreamSegment.done],
         ⟨1, 0, 0⟩) := by
  have hs : req.subjectId ∈ subjects := by simpa using hsubj
  constructor
  · simp [orchestrateComplete, hmsgs, hs, hmatch, check]
  · simp [orchestrateStream, hmsgs, hs, hmatch, check]

/-- Closed instance of `moderation_short_circuit` at a concrete
disallowed request. -/
theorem moderation_short_circuit_witness :
    orchestrateComplete ["math"] (fun s => s = "forbidden")
        (fun _ => Except.error BackendErr.transient) 2
        ⟨"math", [⟨Role.user, "forbidden"⟩], none⟩ =
      (.blocked refusalMessage, ⟨1, 0, 0⟩) :=
  (moderation_short_circuit ["math"] (fun s => s = "forbidden")
    (fun _ => Except.error BackendErr.transient) (fun _ => StreamAttempt.failEarly)
    2 ⟨"math", [⟨Role.user, "forbidden"⟩], none⟩
    (by decide) (by decide) (by decide)).1

/-- C8: a structurally invalid request (empty message list or unknown
subject id) fails immediately with a validation error on both chat
operations, with zero moderation, prompt-builder and backend work. -/
theorem validation_short_circuit (subjects : List String)
    (matcher : String → Bool) (backend : Nat → Except BackendErr ChatResult)
    (attempts : Nat → StreamAttempt) (maxAttempts : Nat) (req : ChatRequest)
    (h : req.messages = [] ∨ subjects.contains req.subjectId = false) :
    (∃ m, orchestrateComplete subjects matcher backend maxAttempts req =
        (.failed (.validation m), ⟨0, 0, 0⟩))
      ∧ (∃ m, orchestrateStream subjects matcher attempts maxAttempts req =
        (.error (.validation m), ⟨0, 0, 0⟩)) := by
  rcases h with h | h
  · exact ⟨⟨"messages must be non-empty", by simp [orchestrateComplete, h]⟩,
      ⟨"messages must be non-empty", by simp [orchestrateStream, h]⟩⟩
  · by_cases hm : req.messages = []
    · exact ⟨⟨"messages must be non-empty", by simp [orchestrateComplete, hm]⟩,
        ⟨"messages must be non-empty", by simp [orchestrateStream, hm]⟩⟩
    · have hns : req.subjectId ∉ subjects := by simpa using h
      exact ⟨⟨"unknown subjectId", by simp [orchestrateComplete, hm, hns]⟩,
        ⟨"unknown subjectId", by simp [orchestrateStream, hm, hns]⟩⟩

/-- Closed instance of `validation_short_circuit` at the empty-messages
request of the spec scenario. -/
theorem validation_short_circuit_witness :
    ∃ m, orchestrateComplete ["math"] (fun _ => false)
        (fun _ => Except.error BackendErr.transient) 3
        ⟨"math", [], none⟩ =
      (.failed (.validation m), ⟨0, 0, 0⟩) :=
  (validation_short_circuit ["math"] (fun _ => false)
    (fun _ => Except.error BackendErr.transient)
    (fun _ => StreamAttempt.failEarly) 3 ⟨"math", [], none⟩ (Or.inl rfl)).1

theorem range_three_cons (n : Nat) :
    List.range (n + 3) = 0 :: 1 :: 2 :: (List.range n).map (fun x => 3 + x) := by
  have h3 : List.range 3 = [0, 1, 2] := by decide
  rw [Nat.add_comm n 3, List.range_add, h3]
  rfl

/-- Two transient failures followed by a success resolve to the success
with exactly three backend invocations, for any attempt budget of at
least three. -/
theorem retryFrom_two_transient (backend : Nat → Except BackendErr ChatResult)
    (r : ChatResult) (n : Nat)
    (hb0 : backend 0 = .error .transient)
    (hb1 : backend 1 = .error .transient)
    (hb2 : backend 2 = .ok r) :
    retryFrom backend (List.range (n + 3)) = (some (.ok r), 3) := by
  rw [range_three_cons]
  simp [retryFrom, hb0, hb1, hb2]

/-- Once some attempt yields segments, the stream retry loop delivers
exactly that attempt's output and stops: earlier early-failures each
count one invocation, the yielding attempt is the last invocation, and a
mid-stream failure terminates the output with an error segment after the
already-delivered deltas. -/
theorem streamRetryFrom_first_yield (attempts : Nat → StreamAttempt) :
    ∀ (pre : List Nat) (i : Nat) (post : List Nat) (pieces : List String)
      (midFail : Bool),
      (∀ j ∈ pre, attempts j = .failEarly) →
      attempts i = .yields pieces midFail →
      streamRetryFrom attempts (pre ++ i :: post) =
        (pieces.map StreamSegment.delta ++
          [if midFail then StreamSegment.errorSeg else StreamSegment.done],
         pre.length + 1) := by
  intro pre
  induction pre with
  | nil =>
    intro i post pieces midFail _ hi
    simp [streamRetryFrom, hi]
  | cons a pre ih =>
    intro i post pieces midFail hpre hi
    have ha : attempts a = .failEarly := hpre a (List.mem_cons_self a pre)
    have hrest : ∀ j ∈ pre, attempts j = .failEarly :=
      fun j hj => hpre j (List.mem_cons_of_mem a hj)
    rw [List.cons_append]
    have hstep : streamRetryFrom attempts (a :: (pre ++ i :: post)) =
        ((streamRetryFrom attempts (pre ++ i :: post)).1,
         (streamRetryFrom attempts (pre ++ i :: post)).2 + 1) := by
      simp [streamRetryFrom, ha]
    rw [hstep, ih i post pieces midFail hrest hi]
    simp [List.length_cons]

/-- C4: only backend adapter calls are retried.  (i) Two transient
`complete` failures followed by a success yield a successful turn with no
visible error and exactly three backend invocations; (ii) a `stream`
attempt is retried only while it has emitted nothing — once an attempt
yields segments no further attempt is made, and a mid-stream failure is
terminal with the already-delivered deltas kept, followed by a terminal
error segment; (iii) moderation and prompt building are invoked at most
once per turn, so their failures are never retried. -/
theorem backend_retry_policy (subjects : List String)
    (matcher : String → Bool) (backend : Nat → Except BackendErr ChatResult)
    (attempts : Nat → StreamAttempt) (n : Nat) (r : ChatResult)
    (req : ChatRequest)
    (hmsgs : req.messages ≠ [])
    (hsubj : subjects.contains req.subjectId = true)
    (hmod : matcher (latestUserContent req.messages) = false)
    (hb0 : backend 0 = .error .transient)
    (hb1 : backend 1 = .error .transient)
    (hb2 : backend 2 = .ok r) :
    orchestrateComplete subjects matcher backend (n + 3) req =
        (.completed r, ⟨1, 1, 3⟩)
      ∧ (∀ (pre : List Nat) (i : Nat) (post : List Nat)
          (pieces : List String) (midFail : Bool),
          (∀ j ∈ pre, attempts j = .failEarly) →
          attempts i = .yields pieces midFail →
          streamRetryFrom attempts (pre ++ i :: post) =
            (pieces.map StreamSegment.delta ++
              [if midFail then StreamSegment.errorSeg else StreamSegment.done],
             pre.length + 1))
      ∧ (∀ (req2 : ChatRequest) (m : Nat),
          (orchestrateComplete subjects matcher backend m req2).2.moderationCalls ≤ 1
            ∧ (orchestrateComplete subjects matcher backend m req2).2.promptCalls ≤ 1) := by
  refine ⟨?_, streamRetryFrom_first_yield attempts, ?_⟩
  · have hs : req.subjectId ∈ subjects := by simpa using hsubj
    simp [orchestrateComplete, hmsgs, hs, hmod, check,
      retryFrom_two_transient backend r n hb0 hb1 hb2]
  · intro req2 m
    rw [orchestrateComplete]
    split
    · exact ⟨by simp, by simp⟩
    · split
      · exact ⟨by simp, by simp⟩
      · split
        · exact ⟨by simp, by simp⟩
        · rcases hres : retryFrom backend (List.range m) with ⟨res, cnt⟩
          cases res with
          | none => exact ⟨by simp, by simp⟩
          | some v =>
            cases v with
            | ok r2 => exact ⟨by simp, by simp⟩
            | error e => cases e <;> exact ⟨by simp, by simp⟩

/-- Closed instance of `backend_retry_policy`: two timeouts then a
success produce exactly three recorded backend invocations and a
successful turn. -/
theorem backend_retry_policy_witness :
    orchestrateComplete ["math"] (fun _ => false)
        (fun i => if i = 2 then Except.ok ⟨⟨Role.assistant, "ans"⟩, "m", false⟩
          else Except.error BackendErr.transient) 3
        ⟨"math", [⟨Role.user, "q"⟩], none⟩ =
      (.completed ⟨⟨Role.assistant, "ans"⟩, "m", false⟩, ⟨1, 1, 3⟩) :=
  (backend_retry_policy ["math"] (fun _ => false)
    (fun i => if i = 2 then Except.ok ⟨⟨Role.assistant, "ans"⟩, "m", false⟩
      else Except.error BackendErr.transient)
    (fun _ => StreamAttempt.failEarly) 0 ⟨⟨Role.assistant, "ans"⟩, "m", false⟩
    ⟨"math", [⟨Role.user, "q"⟩], none⟩
    (by decide) (by decide) rfl rfl rfl rfl).1

/-! ## Recommendation Engine

Lives in the FastAPI backend, which is not vendored with the sources;
modelled from §4.4 of the specification: per-tag rolling struggle score,
argmax with most-recent tie-break, advancement via a skill-progression
table when the top score is non-positive, stub fallback on an empty
window. -/

/-- `SkillEvent` event kinds from the spec data model. -/
inductive EventType where
  | correct
  | incorrect
  | askedHint
  | other
deriving DecidableEq, Repr

/-- `SkillEvent` from the spec data model. -/
structure SkillEvent where
  userId : String
  subjectId : String
  skillTag : String
  eventType : EventType
  occurredAt : Nat
deriving DecidableEq, Repr

/-- Modelled from the spec: struggle contribution of one event:
incremented by `incorrect`/`askedHint`, decremented by `correct`. -/
def eventDelta : EventType → Int
  | .incorrect => 1
  | .askedHint => 1
  | .correct => -1
  | .other => 0

/-- The rolling struggle score of a skill tag over the event window. -/
def struggleScore (evs : List SkillEvent) (tag : String) : Int :=
  ((evs.filter (fun e => e.skillTag = tag)).map
    (fun e => eventDelta e.eventType)).sum

/-- The most recent `occurredAt` of a tag in the window. -/
def lastSeen (evs : List SkillEvent) (tag : String) : Nat :=
  ((evs.filter (fun e => e.skillTag = tag)).map
    (fun e => e.occurredAt)).foldr max 0

/-- The recently-seen skill tags of the window. -/
def seenTags (evs : List SkillEvent) : List String :=
  (evs.map (fun e => e.skillTag)).dedup

/-- The selection preorder of the policy: `u` is no better a remediation
candidate than `t` when its score is lower, or equal with an `occurredAt`
that is not more recent. -/
def tagLE (evs : List SkillEvent) (u t : String) : Prop :=
  struggleScore evs u < struggleScore evs t
    ∨ (struggleScore evs u = struggleScore evs t
        ∧ lastSeen evs u ≤ lastSeen evs t)

/-- Keep the better of two candidate tags: higher struggle score wins,
ties break towards the most recent `occurredAt`. -/
def pickBetter (evs : List SkillEvent) (t u : String) : String :=
  if struggleScore evs t < struggleScore evs u then u
  else if struggleScore evs u = struggleScore evs t
      ∧ lastSeen evs t < lastSeen evs u then u
  else t

/-- The top struggling tag of the window, `none` on an empty window. -/
def pickTop (evs : List SkillEvent) : Option String :=
  match seenTags evs with
  | [] => none
  | t :: ts => some (ts.foldl (pickBetter evs) t)

theorem tagLE_refl (evs : List SkillEvent) (t : String) : tagLE evs t t :=
  Or.inr ⟨rfl, le_refl _⟩

theorem tagLE_trans (evs : List SkillEvent) {a b c : String}
    (h1 : tagLE evs a b) (h2 : tagLE evs b c) : tagLE evs a c := by
  rcases h1 with h1 | ⟨h1e, h1l⟩ <;> rcases h2 with h2 | ⟨h2e, h2l⟩
  · exact Or.inl (lt_trans h1 h2)
  · exact Or.inl (h2e ▸ h1)
  · exact Or.inl (h1e ▸ h2)
  · exact Or.inr ⟨h1e.trans h2e, le_trans h1l h2l⟩

theorem pickBetter_left (evs : List SkillEvent) (t u : String) :
    tagLE evs t (pickBetter evs t u) := by
  rw [pickBetter]
  split_ifs with h1 h2
  · exact Or.inl h1
  · exact Or.inr ⟨h2.1.symm, le_of_lt h2.2⟩
  · exact tagLE_refl evs t

theorem pickBetter_right (evs : List SkillEvent) (t u : String) :
    tagLE evs u (pickBetter evs t u) := by
  rw [pickBetter]
  split_ifs with h1 h2
  · exact tagLE_refl evs u
  · exact tagLE_refl evs u
  · rcases lt_or_ge (struggleScore evs u) (struggleScore evs t) with h | h
    · exact Or.inl h
    · have he : struggleScore evs u = struggleScore evs t :=
        le_antisymm (not_lt.mp h1) h
      have hnl : ¬ lastSeen evs t < lastSeen evs u := fun hl => h2 ⟨he, hl⟩
      exact Or.inr ⟨he, not_lt.mp hnl⟩

theorem pickBetter_eq_or (evs : List SkillEvent) (t u : String) :
    pickBetter evs t u = t ∨ pickBetter evs t u = u := by
  rw [pickBetter]
  split_ifs <;> simp

/-- The fold over candidates returns a seen tag that is maximal for the
policy preorder. -/
theorem foldl_pickBetter_spec (evs : List SkillEvent) (ts : List String) :
    ∀ t : String,
      ts.foldl (pickBetter evs) t ∈ t :: ts
        ∧ ∀ u ∈ t :: ts, tagLE evs u (ts.foldl (pickBetter evs) t) := by
  induction ts with
  | nil =>
    intro t
    refine ⟨by simp, ?_⟩
    intro u hu
    rw [List.mem_singleton] at hu
    subst hu
    exact tagLE_refl evs u
  | cons v ts ih =>
    intro t
    rcases ih (pickBetter evs t v) with ⟨hmem, hle⟩
    rw [List.foldl_cons]
    constructor
    · rcases List.mem_cons.mp hmem with hm | hm
      · rw [hm]
        rcases pickBetter_eq_or evs t v with h | h <;> simp [h]
      · exact List.mem_cons_of_mem _ (List.mem_cons_of_mem _ hm)
    · intro u hu
      rcases List.mem_cons.mp hu with hu | hu
      · subst hu
        exact tagLE_trans evs (pickBetter_left evs u v)
          (hle _ (List.mem_cons_self _ _))
      rcases List.mem_cons.mp hu with hu | hu
      · subst hu
        exact tagLE_trans evs (pickBetter_right evs t u)
          (hle _ (List.mem_cons_self _ _))
      · exact hle u (List.mem_cons_of_mem _ hu)

/-- The selected top tag is a recently-seen tag with the highest struggle
score, ties broken towards the most recent occurrence. -/
theorem pickTop_spec (evs : List SkillEvent) {t : String}
    (h : pickTop evs = some t) :
    t ∈ seenTags evs ∧ ∀ u ∈ seenTags evs, tagLE evs u t := by
  rw [pickTop] at h
  rcases hs : seenTags evs with _ | ⟨a, ts⟩
  · rw [hs] at h
    cases h
  · rw [hs] at h
    injection h with h
    rcases foldl_pickBetter_spec evs ts a with ⟨hmem, hle⟩
    rw [h] at hmem hle
    exact ⟨hs ▸ hmem, hs ▸ hle⟩

/-- Whether a suggestion is a remediation, an advancement along the
skill-progression table, or the stub fallback for an empty window. -/
inductive SuggestionKind where
  | remediation
  | advancement
  | stubFallback
deriving DecidableEq, Repr

/-- `NextQuestionSuggestion` from the spec data model, with the
remediation/advancement mark required by §4.4. -/
structure NextQuestionSuggestion where
  questionText : String
  rationale : String
  subjectId : String
  isStub : Bool
  kind : SuggestionKind
deriving DecidableEq, Repr

/-- The templated practice question for a skill tag. -/
def questionFor (tag : String) : String :=
  "Try a practice question on " ++ tag ++ "."

/-- Modelled from the spec: `suggestNext` over the recent event window:
pick the seen tag with the highest struggle score (most recent wins
ties); a positive top score yields a remediation on that tag, otherwise
the next tag of the skill-progression table `prog` is suggested as an
advancement; an empty window yields the stub fallback. -/
def suggestNext (prog : String → Option String) (evs : List SkillEvent)
    (subjectId : String) : NextQuestionSuggestion :=
  match pickTop evs with
  | none =>
    { questionText := "Ask me anything about " ++ subjectId ++ " to get started!",
      rationale := "no recent skill events for this subject",
      subjectId := subjectId,
      isStub := true,
      kind := .stubFallback }
  | some t =>
    if 0 < struggleScore evs t then
      { questionText := questionFor t,
        rationale :=
          "because recent answers showed repeated incorrect attempts or hints on "
            ++ t,
        subjectId := subjectId,
        isStub := false,
        kind := .remediation }
    else
      match prog t with
      | some nxt =>
        { questionText := questionFor nxt,
          rationale := "you are succeeding on " ++ t ++ "; advancing to " ++ nxt,
          subjectId := subjectId,
          isStub := false,
          kind := .advancement }
      | none =>
        { questionText := questionFor t,
          rationale :=
            "you are succeeding on " ++ t ++ "; advancing with a harder problem",
          subjectId := subjectId,
          isStub := false,
          kind := .advancement }

/-- An event of the concrete spec scenarios. -/
def ev (tag : String) (ty : EventType) (at0 : Nat) : SkillEvent :=
  ⟨"u1", "algebra", tag, ty, at0⟩

/-- Scenario window: three incorrect on factoring, two correct on
linear. -/
def scenarioRemediation : List SkillEvent :=
  [ev "algebra.factoring" .incorrect 1, ev "algebra.factoring" .incorrect 2,
   ev "algebra.factoring" .incorrect 3, ev "algebra.linear" .correct 4,
   ev "algebra.linear" .correct 5]

/-- Scenario window: three correct on factoring. -/
def scenarioAdvancement : List SkillEvent :=
  [ev "algebra.factoring" .correct 1, ev "algebra.factoring" .correct 2,
   ev "algebra.factoring" .correct 3]

/-- Scenario progression table: factoring advances to quadratics. -/
def scenarioProg : String → Option String := fun t =>
  if t = "algebra.factoring" then some "algebra.quadratics" else none

/-- C5: `suggestNext` follows the rule policy exactly: the selected tag
is a recently-seen tag maximal by struggle score with most-recent
tie-break; a positive top score yields a remediation on that tag; a
non-positive top score advances to the progression table's next tag; and
the two spec scenarios select `algebra.factoring` (remediation, with a
rationale citing repeated incorrect attempts) and `algebra.quadratics`
(advancement) respectively. -/
theorem suggestNext_policy :
    (∀ (prog : String → Option String) (evs : List SkillEvent)
      (s t : String), pickTop evs = some t → 0 < struggleScore evs t →
        suggestNext prog evs s =
          { questionText := questionFor t,
            rationale :=
              "because recent answers showed repeated incorrect attempts or hints on "
                ++ t,
            subjectId := s, isStub := false, kind := .remediation }
        ∧ t ∈ seenTags evs ∧ ∀ u ∈ seenTags evs, tagLE evs u t)
    ∧ (∀ (prog : String → Option String) (evs : List SkillEvent)
        (s t nxt : String), pickTop evs = some t →
          struggleScore evs t ≤ 0 → prog t = some nxt →
          (suggestNext prog evs s).questionText = questionFor nxt
            ∧ (suggestNext prog evs s).kind = .advancement)
    ∧ (suggestNext scenarioProg scenarioRemediation "algebra").questionText =
        questionFor "algebra.factoring"
    ∧ (suggestNext scenarioProg scenarioRemediation "algebra").kind =
        .remediation
    ∧ (suggestNext scenarioProg scenarioRemediation "algebra").rationale =
        "because recent answers showed repeated incorrect attempts or hints on algebra.factoring"
    ∧ (suggestNext scenarioProg scenarioAdvancement "algebra").questionText =
        questionFor "algebra.quadratics"
    ∧ (suggestNext scenarioProg scenarioAdvancement "algebra").kind =
        .advancement := by
  refine ⟨?_, ?_, by decide, by decide, by decide, by decide, by decide⟩
  · intro prog evs s t hp hsc
    refine ⟨?_, pickTop_spec evs hp⟩
    rw [suggestNext, hp]
    simp [hsc]
  · intro prog evs s t nxt hp hsc hprog
    rw [suggestNext, hp]
    have hns : ¬ 0 < struggleScore evs t := not_lt.mpr hsc
    simp [hns, hprog, questionFor]

/-- Closed instance of `suggestNext_policy`: the remediation scenario
selects `algebra.factoring`. -/
theorem suggestNext_policy_witness :
    (suggestNext scenarioProg scenarioRemediation "algebra").questionText =
      questionFor "algebra.factoring" :=
  suggestNext_policy.2.2.1

/-- C6: `suggestNext` is a pure, total function of the event window: two
runs over equal ordered windows return the same suggestion, the empty
window yields the `isStub := true` fallback rather than an error, and
every window yields a well-formed suggestion for the requested
subject. -/
theorem suggestNext_pure_total (prog : String → Option String) (s : String) :
    (∀ evs1 evs2 : List SkillEvent, evs1 = evs2 →
        suggestNext prog evs1 s = suggestNext prog evs2 s)
      ∧ (suggestNext prog [] s).isStub = true
      ∧ ∀ evs : List SkillEvent, (suggestNext prog evs s).subjectId = s := by
  refine ⟨fun evs1 evs2 h => h ▸ rfl, rfl, ?_⟩
  intro evs
  rcases hp : pickTop evs with _ | t
  · rw [suggestNext, hp]
  · rw [suggestNext, hp]
    by_cases hsc : 0 < struggleScore evs t
    · simp [hsc]
    · rcases hprog : prog t with _ | nxt <;> simp [hsc, hprog]

/-- Closed instance of `suggestNext_pure_total` at the empty window. -/
theorem suggestNext_pure_total_witness :
    (suggestNext (fun _ => none) [] "math").isStub = true :=
  (suggestNext_pure_total (fun _ => none) "math").2.1

/-! ## Prompt Builder

Lives in the FastAPI backend, which is not vendored with the sources;
modelled from §4.3 of the specification. -/

/-- Modelled from the spec: subject configuration; its required fields
are optional at the boundary, and a missing required field makes the
configuration malformed. -/
structure SubjectConfig where
  name : Option String
  teachingStyle : Option String
  constraints : List String
deriving DecidableEq, Repr

/-- Prompt-builder failure: only malformed subject configuration. -/
inductive BuildError where
  | malformedConfig (msg : String)
deriving DecidableEq, Repr

/-- The synthesized system message: subject teaching style plus the
global safety rules. -/
def systemMessage (n style : String) : ChatMessage :=
  ⟨Role.system,
    "You are a tutoring assistant for " ++ n ++ ". Teaching style: "
      ++ style ++ ". Follow the global safety rules."⟩

/-- Modelled from the spec: truncation to the configured budget: keep
the system head, drop the oldest non-system turns first, and always keep
at least the most recent turn. -/
def truncateCtx (budget : Nat) (sys : ChatMessage)
    (rest : List ChatMessage) : List ChatMessage :=
  if rest.length + 1 ≤ budget then sys :: rest
  else sys :: rest.drop (rest.length + 1 - max budget 2)

/-- Modelled from the spec: `build(subjectConfig, conversationContext)`:
fail on malformed configuration; otherwise prepend the synthesized
system message exactly when the context does not already start with a
system message, then truncate to the budget. -/
def build (cfg : SubjectConfig) (ctx : List ChatMessage) (budget : Nat) :
    Except BuildError (List ChatMessage) :=
  match cfg.name, cfg.teachingStyle with
  | some n, some style =>
    match ctx with
    | m :: rest =>
      if m.role = Role.system then .ok (truncateCtx budget m rest)
      else .ok (truncateCtx budget (systemMessage n style) (m :: rest))
    | [] => .ok [systemMessage n style]
  | _, _ => .error (.malformedConfig "missing required subject fields")

theorem getLast?_drop_of_lt {α : Type} (l : List α) :
    ∀ k, k < l.length → (l.drop k).getLast? = l.getLast? := by
  induction l with
  | nil =>
    intro k h
    simp at h
  | cons a l ih =>
    intro k h
    cases k with
    | zero => rfl
    | succ k =>
      have hk : k < l.length := by
        simpa [Nat.succ_lt_succ_iff] using h
      cases l with
      | nil => simp at hk
      | cons b l2 =>
        rw [List.drop_succ_cons, ih k hk, List.getLast?_cons_cons]

/-- Truncation returns the system head plus a suffix of the remaining
turns (oldest dropped first); within budget nothing is dropped; the most
recent turn is always retained. -/
theorem truncateCtx_spec (budget : Nat) (sys : ChatMessage)
    (rest : List ChatMessage) :
    (∃ k, truncateCtx budget sys rest = sys :: rest.drop k)
      ∧ (rest.length + 1 ≤ budget → truncateCtx budget sys rest = sys :: rest)
      ∧ (rest ≠ [] →
          (truncateCtx budget sys rest).getLast? = rest.getLast?) := by
  refine ⟨?_, ?_, ?_⟩
  · rw [truncateCtx]
    split_ifs with h
    · exact ⟨0, by simp⟩
    · exact ⟨rest.length + 1 - max budget 2, rfl⟩
  · intro h
    rw [truncateCtx, if_pos h]
  · intro hne
    rw [truncateCtx]
    split_ifs with h
    · cases rest with
      | nil => exact absurd rfl hne
      | cons b l2 => rw [List.getLast?_cons_cons]
    · have hlen : 1 ≤ rest.length := by
        cases rest with
        | nil => exact absurd rfl hne
        | cons b l2 => simp
      have hk : rest.length + 1 - max budget 2 < rest.length := by omega
      have hdrop := getLast?_drop_of_lt rest _ hk
      rcases hd : rest.drop (rest.length + 1 - max budget 2) with _ | ⟨b, l2⟩
      · exfalso
        have hcl := congrArg List.length hd
        simp [List.length_drop] at hcl
        omega
      · rw [hd] at hdrop
        rw [List.getLast?_cons_cons, hdrop]

/-- C7: the Prompt Builder contract: it errors exactly on malformed
subject configuration; it keeps an existing leading system message
instead of prepending a second one; it prepends the synthesized system
message when none is present; within budget the context passes through
unchanged; truncation only drops the oldest non-system turns (the result
is always the system head plus a suffix of the remaining turns); and the
most recent turn is always retained. -/
theorem prompt_builder_contract :
    (∀ (cfg : SubjectConfig) (ctx : List ChatMessage) (budget : Nat),
        (∃ e, build cfg ctx budget = .error e) ↔
          (cfg.name = none ∨ cfg.teachingStyle = none))
      ∧ (∀ (n style : String) (cs : List String) (m : ChatMessage)
          (rest : List ChatMessage) (budget : Nat), m.role = Role.system →
            ∃ k, build ⟨some n, some style, cs⟩ (m :: rest) budget =
              .ok (m :: rest.drop k))
      ∧ (∀ (n style : String) (cs : List String) (budget : Nat),
          build ⟨some n, some style, cs⟩ [] budget =
            .ok [systemMessage n style])
      ∧ (∀ (n style : String) (cs : List String) (m : ChatMessage)
          (rest : List ChatMessage) (budget : Nat),
          ¬ m.role = Role.system →
            ∃ k, build ⟨some n, some style, cs⟩ (m :: rest) budget =
              .ok (systemMessage n style :: (m :: rest).drop k))
      ∧ (∀ (n style : String) (cs : List String) (m : ChatMessage)
          (rest : List ChatMessage) (budget : Nat),
          ¬ m.role = Role.system → rest.length + 2 ≤ budget →
            build ⟨some n, some style, cs⟩ (m :: rest) budget =
              .ok (systemMessage n style :: m :: rest))
      ∧ (∀ (n style : String) (cs : List String) (m : ChatMessage)
          (rest msgs : List ChatMessage) (budget : Nat),
          build ⟨some n, some style, cs⟩ (m :: rest) budget = .ok msgs →
            msgs.getLast? = (m :: rest).getLast?) := by
  refine ⟨?_, ?_, ?_, ?_, ?_, ?_⟩
  · intro cfg ctx budget
    rcases cfg with ⟨no, so, cs⟩
    cases no with
    | none => simp [build]
    | some n =>
      cases so with
      | none => simp [build]
      | some style =>
        simp only [build]
        cases ctx with
        | nil => simp
        | cons m rest =>
          by_cases hm : m.role = Role.system <;> simp [hm]
  · intro n style cs m rest budget hm
    obtain ⟨k, hk⟩ := (truncateCtx_spec budget m rest).1
    exact ⟨k, by simp [build, hm, hk]⟩
  · intro n style cs budget
    rfl
  · intro n style cs m rest budget hm
    obtain ⟨k, hk⟩ :=
      (truncateCtx_spec budget (systemMessage n style) (m :: rest)).1
    exact ⟨k, by simp [build, hm, hk]⟩
  · intro n style cs m rest budget hm hb
    have ht := (truncateCtx_spec budget (systemMessage n style) (m :: rest)).2.1
      (by simpa using hb)
    simp [build, hm, ht]
  · intro n style cs m rest msgs budget hok
    simp only [build] at hok
    split_ifs at hok with hm
    · simp only [Except.ok.injEq] at hok
      subst hok
      cases rest with
      | nil =>
        rw [truncateCtx]
        split_ifs <;> simp
      | cons b l =>
        rw [(truncateCtx_spec budget m (b :: l)).2.2 (by simp),
          List.getLast?_cons_cons]
    · simp only [Except.ok.injEq] at hok
      subst hok
      exact (truncateCtx_spec budget (systemMessage n style) (m :: rest)).2.2
        (by simp)

/-- Closed instance of `prompt_builder_contract`: a context that already
starts with a system message is not given a second one. -/
theorem prompt_builder_contract_witness :
    ∃ k, build ⟨some "math", some "step by step", []⟩
        [⟨Role.system, "s"⟩, ⟨Role.user, "q"⟩] 10 =
      .ok (⟨Role.system, "s"⟩ :: ([⟨Role.user, "q"⟩] : List ChatMessage).drop k) :=
  prompt_builder_contract.2.1 "math" "step by step" [] ⟨Role.system, "s"⟩
    [⟨Role.user, "q"⟩] 10 rfl

/-! ## Stream cancellation (§5)

The cancellable producer lives in the FastAPI backend, which is not
vendored with the sources; modelled from §5 of the specification as a
step relation driven by an arbitrary schedule of consumer commands. -/

/-- Modelled from the spec: consumer-side commands of one in-progress
stream: request/consume the next segment, or cancel (disconnect). -/
inductive StreamCmd where
  | next
  | cancel
deriving DecidableEq, Repr

/-- Modelled from the spec: the state of one streaming turn: segments
the backend still holds, segments delivered to the caller, whether
cancellation has been observed, and how many segment requests have been
issued to the backend adapter. -/
structure StreamState where
  remaining : List StreamSegment
  delivered : List StreamSegment
  cancelled : Bool
  adapterCalls : Nat
deriving DecidableEq, Repr

/-- Modelled from the spec: one scheduler step.  Once cancellation is
observed, a `next` request neither delivers a segment nor invokes the
backend adapter: the stream is not drained to completion. -/
def stepStream (s : StreamState) : StreamCmd → StreamState
  | .cancel => { s with cancelled := true }
  | .next =>
    if s.cancelled then s
    else
      match s.remaining with
      | [] => s
      | seg :: rest =>
        { remaining := rest, delivered := s.delivered ++ [seg],
          cancelled := false, adapterCalls := s.adapterCalls + 1 }

/-- Run a schedule of consumer commands from a starting state. -/
def runStream (s : StreamState) (cmds : List StreamCmd) : StreamState :=
  cmds.foldl stepStream s

/-- A cancelled stream state is inert: no schedule changes it. -/
theorem runStream_cancelled (cmds : List StreamCmd) :
    ∀ s : StreamState, s.cancelled = true → runStream s cmds = s := by
  induction cmds with
  | nil => intro s _; rfl
  | cons c cmds ih =>
    intro s hs
    have hstep : stepStream s c = s := by
      cases c with
      | cancel =>
        rcases s with ⟨r, d, cc, a⟩
        simp only at hs
        subst hs
        rfl
      | next => simp [stepStream, hs]
    rw [runStream, List.foldl_cons, hstep]
    exact ih s hs

/-- C9: after cancellation is observed, no further stream segments are
delivered to the caller and the backend adapter receives no further
segment requests, whatever the rest of the schedule does: the state
after `pre ++ cancel :: post` equals the state right after the cancel,
whose delivered segments and adapter-call count are those reached by
`pre` alone. -/
theorem stream_cancellation (init : StreamState) (pre post : List StreamCmd) :
    runStream init (pre ++ StreamCmd.cancel :: post) =
        runStream init (pre ++ [StreamCmd.cancel])
      ∧ (runStream init (pre ++ StreamCmd.cancel :: post)).delivered =
          (runStream init pre).delivered
      ∧ (runStream init (pre ++ StreamCmd.cancel :: post)).adapterCalls =
          (runStream init pre).adapterCalls := by
  have hsplit : runStream init (pre ++ StreamCmd.cancel :: post) =
      runStream (stepStream (runStream init pre) StreamCmd.cancel) post := by
    rw [runStream, List.foldl_append, List.foldl_cons]
    rfl
  have hcanc : (stepStream (runStream init pre) StreamCmd.cancel).cancelled
      = true := rfl
  have hinert := runStream_cancelled post _ hcanc
  have hone : runStream init (pre ++ [StreamCmd.cancel]) =
      stepStream (runStream init pre) StreamCmd.cancel := by
    rw [runStream, List.foldl_append]
    rfl
  refine ⟨?_, ?_, ?_⟩
  · rw [hsplit, hinert, hone]
  · rw [hsplit, hinert]
    rfl
  · rw [hsplit, hinert]
    rfl

end SubjectChat
